import Mathlib

/-!
Verification development for the sitemap_scrape repository, centred on the
scrape orchestration core of src/scripts/straits_times/st_scraper.py,
src/scripts/straits_times/retryscraper.py and the file-worker wrappers in
st_scraper.py and src/scripts/business_times/bt_scraper.py.

The embedding is shallow: Python values written to or read from the JSONL
logs are modelled by the inductive type JVal (the result of json.loads);
a log line is an Option JVal, with none standing for a line that fails to
parse (json.JSONDecodeError).  Python exceptions inside scrape_single_url
are modelled by the Except field of Doc; the browser, the network and the
per-site extraction heuristics are oracles (function parameters), as the
spec treats them as external collaborators.
-/

namespace SitemapScrape

/-- Model of a parsed JSON value, the result of json.loads on a log line. -/
inductive JVal where
  | null : JVal
  | bool (b : Bool) : JVal
  | num (n : Int) : JVal
  | str (s : String) : JVal
  | arr (elems : List JVal) : JVal
  | obj (fields : List (String × JVal)) : JVal

/-- Python equality between a decoded JSON value and a str: a value decoded
by json.loads equals a Python string u exactly when it is the string u.
Used to model the membership test u not in processed_urls. -/
def JVal.eqStr (v : JVal) (u : String) : Bool :=
  match v with
  | .str s => s == u
  | _ => false

/-- Membership of the string u in a set of decoded JSON values, under
Python equality (st_scraper.py line 255). -/
def memStr (vs : List JVal) (u : String) : Bool :=
  vs.any (fun v => v.eqStr u)

/-- First-match association lookup, modelling Python dict indexing
rec[k] together with the membership test k in rec. -/
def jlookup (k : String) : List (String × JVal) → Option JVal
  | [] => none
  | (k2, v) :: rest => if k2 = k then some v else jlookup k rest

/-- Model of a fetched, parsed page (a BeautifulSoup document).
hasArticle models soup.find("article") being truthy; fields models the
outcome of the title / publish-date / content / images extraction block of
scrape_single_url (st_scraper.py lines 130-191), which either produces the
record fields or raises (Except.error is the raised exception repr). -/
structure Doc where
  hasArticle : Bool
  fields : Except String (List (String × JVal))

/-- Result of ST_Scraper.scrape_single_url: either the success dict built at
st_scraper.py line 193, or the ("ERROR", url, repr(e), traceback) 4-tuple
returned by the except branch at line 203. -/
inductive ScrapeResult where
  | ok (rec : List (String × JVal)) : ScrapeResult
  | err (url msg tb : String) : ScrapeResult

/-- Truthiness test soup and soup.find("article") of st_scraper.py line 120:
_fetch_page_content returned a document and it contains an article tag. -/
def soupOk : Option Doc → Bool
  | none => false
  | some d => d.hasArticle

/-- The retry loop of scrape_single_url (st_scraper.py lines 117-123):
for attempt in range(maxRetries): soup = fetch(); if ok: break.
fetch is indexed by how many fetches have already happened; the result is
(number of fetch calls performed, final value of soup). -/
def runRetryLoop (fetch : Nat → Option Doc) : Nat → Nat → Option Doc → Nat × Option Doc
  | 0, calls, soup => (calls, soup)
  | rem + 1, calls, _ =>
      let soup := fetch calls
      if soupOk soup then (calls + 1, soup)
      else runRetryLoop fetch rem (calls + 1) soup

/-- Number of _fetch_page_content calls made by the retry loop with budget m. -/
def fetchAttempts (fetch : Nat → Option Doc) (m : Nat) : Nat :=
  (runRetryLoop fetch m 0 none).1

/-- Value of soup after the retry loop with budget m. -/
def fetchOutcome (fetch : Nat → Option Doc) (m : Nat) : Option Doc :=
  (runRetryLoop fetch m 0 none).2

/-- max_retries = 3 in ST_Scraper.scrape_single_url (st_scraper.py line 117). -/
def st_max_retries : Nat := 3

/-- max_retries = 2 in AsyncScraper.scrape_single_url (asyncscraper.py line 141). -/
def async_max_retries : Nat := 2

/-- ST_Scraper.scrape_single_url (st_scraper.py lines 112-203).  After the
retry loop: if soup is None, soup.find raises AttributeError; if the document
has no article tag, RuntimeError is raised; otherwise the extraction block
either raises or yields the field list, and the returned dict starts with
the pair ("article_url", url).  Every raise is caught by the except branch,
which returns the ("ERROR", url, repr(e), traceback) tuple. -/
def scrape_single_url (fetch : Nat → Option Doc) (url : String) : ScrapeResult :=
  match fetchOutcome fetch st_max_retries with
  | none =>
      .err url "AttributeError: NoneType object has no attribute find" "tb"
  | some d =>
      if d.hasArticle then
        match d.fields with
        | .error e => .err url e "tb"
        | .ok flds => .ok (("article_url", .str url) :: flds)
      else
        .err url "RuntimeError: No article tag found" "tb"

/-- Python str.strip: drop whitespace from both ends of the line. -/
def pyStrip (s : String) : String :=
  String.mk (((s.data.dropWhile Char.isWhitespace).reverse.dropWhile
    Char.isWhitespace).reverse)

/-- URL list read from the input txt (st_scraper.py line 234): each line is
stripped and blank lines are dropped. -/
def stripUrls (rawLines : List String) : List String :=
  rawLines.filterMap (fun ln => if pyStrip ln = "" then none else some (pyStrip ln))

/-- The set of already-succeeded URLs extracted from the success log
(st_scraper.py lines 244-252): values at key article_url of lines that
parse to a dict containing that key; unparseable and non-dict lines are
skipped. -/
def processedUrls (outLines : List (Option JVal)) : List JVal :=
  outLines.filterMap (fun l =>
    match l with
    | some (.obj flds) => jlookup "article_url" flds
    | _ => none)

/-- The URLs the orchestrator actually schedules (st_scraper.py line 255):
input URLs not already in the processed set.  outLog is none when the
success log file does not exist. -/
def scheduledUrls (rawLines : List String) (outLog : Option (List (Option JVal))) :
    List String :=
  let processed := match outLog with
    | none => ([] : List JVal)
    | some ls => processedUrls ls
  (stripUrls rawLines).filter (fun u => !(memStr processed u))

/-- Serialization of a success result as written to the success log
(st_scraper.py line 285, json.dumps of the dict). -/
def okRec : ScrapeResult → Option JVal
  | .ok rec => some (.obj rec)
  | .err _ _ _ => none

/-- Serialization of a failure result as written to the failure log
(st_scraper.py line 285, json.dumps of the 4-tuple yields a JSON array). -/
def errTuple : ScrapeResult → Option JVal
  | .ok _ => none
  | .err u m t => some (.arr [.str "ERROR", .str u, .str m, .str t])

/-- Outcome of one process_txt_async run: the return value, and the records
appended to the success and failure logs. -/
structure OrchResult where
  ret : Option String
  okAppend : List JVal
  errAppend : List JVal

/-- process_txt_async (st_scraper.py lines 218-303).  stem is the input
file stem (year_month); readResult is none when txt_path.read_text raised;
outLog is none when the success log file does not exist, else its parsed
lines; scrape is the per-URL result of scraper.scrape_single_url.  Results
are consumed via asyncio.as_completed in some completion order; the appended
records are modelled in submission order, which fixes one such order — all
claims proved about them are order-insensitive (membership of records). -/
def process_txt_async (stem : String) (readResult : Option (List String))
    (outLog : Option (List (Option JVal))) (scrape : String → ScrapeResult) :
    OrchResult :=
  match readResult with
  | none => ⟨none, [], []⟩
  | some raw =>
      if (stripUrls raw).isEmpty then ⟨some stem, [], []⟩
      else
        let urls := scheduledUrls raw outLog
        if urls.isEmpty then ⟨some stem, [], []⟩
        else
          let results := urls.map scrape
          ⟨some stem, results.filterMap okRec, results.filterMap errTuple⟩

/-- Location of the input txt file relative to the scheduler directories:
still in the pending (unseen) directory, or renamed into the done (seen)
directory. -/
inductive FileLoc where
  | pending : FileLoc
  | seen : FileLoc

/-- Outcome of the file worker: where the input file ended up, whether the
returned status string was the success one, and what process_txt_async
returned (which the worker ignores). -/
structure WorkerResult where
  loc : FileLoc
  statusOk : Bool
  orch : Option String

/-- The file worker _run_one_file (st_scraper.py lines 305-325, identically
bt_scraper.py lines 93-113).  machineryRaises models an exception escaping
asyncio.run (for example the browser failing to launch); a failure to read
the input does NOT raise, because process_txt_async catches it and returns
None, and the worker ignores that return value.  The rename into the seen
directory is modelled as succeeding (main creates the directories first);
on an escaped exception the except branch leaves the file in place. -/
def run_one_file (stem : String) (readResult : Option (List String))
    (outLog : Option (List (Option JVal))) (scrape : String → ScrapeResult)
    (machineryRaises : Bool) : WorkerResult :=
  if machineryRaises then ⟨.pending, false, none⟩
  else
    let r := process_txt_async stem readResult outLog scrape
    ⟨.seen, true, r.ret⟩

/-- RetryScraper.load_error_file (retryscraper.py lines 16-30): keep the
lines that parse to a JSON list of length greater than 1; lines that fail
to parse get a warning; parseable non-list lines are silently dropped. -/
def load_error_file (lines : List (Option JVal)) : List (List JVal) :=
  lines.filterMap (fun l =>
    match l with
    | some (.arr elems) => if 1 < elems.length then some elems else none
    | _ => none)

/-- Number of warnings emitted by load_error_file: one per line that raises
json.JSONDecodeError (retryscraper.py line 27). -/
def numWarnings (lines : List (Option JVal)) : Nat :=
  lines.countP (fun l => l.isNone)

/-- url = entry[1] in RetryScraper.retry_file (retryscraper.py line 59);
loaded entries always have length greater than 1. -/
def entryUrl (e : List JVal) : JVal := e.getD 1 .null

/-- The success test of retry_file (retryscraper.py line 62):
isinstance(result, dict) and "article_url" in result. -/
def isRetrySuccess : ScrapeResult → Bool
  | .ok rec => (jlookup "article_url" rec).isSome
  | .err _ _ _ => false

/-- The success record appended for one retried entry, if its retry
succeeded (retryscraper.py lines 61-63): the re-scrape result when it is a
dict containing article_url, serialized by save_success. -/
def retrySuccRec (scrape : JVal → ScrapeResult) (e : List JVal) : Option JVal :=
  match scrape (entryUrl e) with
  | .ok rec => if (jlookup "article_url" rec).isSome then some (.obj rec) else none
  | .err _ _ _ => none

/-- RetryScraper.retry_file (retryscraper.py lines 45-73).  Returns the
records appended to the success log (one per entry whose retry succeeded)
and the new content written to the error file: none when no valid entries
loaded (early return at line 51, no overwrite), otherwise some remaining
(the entries whose retry failed again, written by overwrite_errors). -/
def retry_file (scrape : JVal → ScrapeResult) (errLines : List (Option JVal)) :
    List JVal × Option (List (List JVal)) :=
  let entries := load_error_file errLines
  if entries.isEmpty then ([], none)
  else
    (entries.filterMap (retrySuccRec scrape),
     some (entries.filter (fun e => !(isRetrySuccess (scrape (entryUrl e))))))

/-- Content of the error file after retry_file: unchanged on the early
return, else exactly the remaining entries serialized one JSON array per
line (overwrite_errors, retryscraper.py lines 38-43). -/
def errFileAfterRetry (scrape : JVal → ScrapeResult) (errLines : List (Option JVal)) :
    List (Option JVal) :=
  match (retry_file scrape errLines).2 with
  | none => errLines
  | some remaining => remaining.map (fun e => some (.arr e))

/-- Joint state of the success log and the failure log of one batch, as
seen by the Retry Sweeper: ok holds the parsed success records, err holds
the parse outcomes of the failure-log lines. -/
structure SweepState where
  ok : List JVal
  err : List (Option JVal)

/-- One pass of RetryScraper.retry_file over the batch state: successes are
appended to the success log, the failure log becomes errFileAfterRetry. -/
def sweepStep (scrape : JVal → ScrapeResult) (s : SweepState) : SweepState :=
  ⟨s.ok ++ (retry_file scrape s.err).1, errFileAfterRetry scrape s.err⟩

/-- k passes of the Retry Sweeper, pass j using the oracle g j (each pass
re-attempts each entry through scrape_single_url; the oracle varies per
pass because the network does). -/
def sweepRounds (g : Nat → JVal → ScrapeResult) : Nat → SweepState → SweepState
  | 0, s => s
  | k + 1, s => sweepStep (g k) (sweepRounds g k s)

/-- Batch state directly after a fresh orchestrator run (no pre-existing
logs: the success log file does not exist and the failure log is empty). -/
def initialSweepState (stem : String) (raw : List String)
    (scrape : String → ScrapeResult) : SweepState :=
  let r := process_txt_async stem (some raw) none scrape
  ⟨r.okAppend, r.errAppend.map some⟩

/-- The URL u is recorded in the success log: some line is a dict whose
article_url is the string u. -/
def okHas (ok : List JVal) (u : String) : Prop :=
  ∃ rec, JVal.obj rec ∈ ok ∧ jlookup "article_url" rec = some (.str u)

/-- The URL u is recorded in the failure log: some line is a JSON array
whose index-1 element is the string u. -/
def errHas (err : List (Option JVal)) (u : String) : Prop :=
  ∃ e, some (JVal.arr e) ∈ err ∧ e.get? 1 = some (.str u)

/-- Shape contract of scrape_single_url on string URLs, proved below for
the model (scrapeShape_scrape_single_url): a success dict records the input
URL under article_url, and a failure tuple carries the input URL. -/
def scrapeShape (f : String → ScrapeResult) : Prop :=
  ∀ u, (∀ rec, f u = .ok rec → jlookup "article_url" rec = some (.str u)) ∧
       (∀ u2 m t, f u = .err u2 m t → u2 = u)

/-- Shape contract of the sweeper-side scrape on arbitrary decoded values
entry[1]: a success dict records the attempted value under article_url. -/
def scrapeShapeJ (g : JVal → ScrapeResult) : Prop :=
  ∀ v rec, g v = .ok rec → jlookup "article_url" rec = some v

/-- Observable state of one ST_Scraper session within one run, from the
fields of ST_Scraper (st_scraper.py lines 18-23) plus launch/page history:
browserLive and numContexts are set by aenter (lines 25-52); launches
counts chromium.launch calls; pagesOpened and pagesClosed count
context.new_page and page.close calls in _fetch_page_content. -/
structure ScraperSession where
  browserLive : Bool
  numContexts : Nat
  launches : Nat
  pagesOpened : Nat
  pagesClosed : Nat

/-- State after ST_Scraper.__init__: no browser, no contexts. -/
def freshScraper : ScraperSession :=
  ⟨false, 0, 0, 0, 0⟩

/-- ST_Scraper.__aenter__ with concurrency c (st_scraper.py lines 25-52):
launches the browser once and creates c contexts. -/
def aenter (c : Nat) (s : ScraperSession) : ScraperSession :=
  { s with browserLive := true, numContexts := c, launches := s.launches + 1 }

/-- Effect of one _fetch_page_content call on the session state
(st_scraper.py lines 89-110): a page is opened and, in the finally block,
closed; no other session field is touched — in particular no fetched-page
counter exists and the browser is never relaunched here. -/
def fetch_page_step (s : ScraperSession) : ScraperSession :=
  { s with pagesOpened := s.pagesOpened + 1, pagesClosed := s.pagesClosed + 1 }

/-- n consecutive fetches within one run. -/
def runFetches : Nat → ScraperSession → ScraperSession
  | 0, s => s
  | n + 1, s => runFetches n (fetch_page_step s)

/-- Number of recycle operations (teardown plus relaunch) that have
happened within a session: every launch after the first one. -/
def recycleOps (s : ScraperSession) : Nat := s.launches - 1

/-- Phase of one scrape task with respect to _fetch_page_content
(st_scraper.py lines 89-110): idle before entering; waiting at
async-with self.semaphore; preNav holding a slot through the jitter sleep,
context pick and new_page; navWait holding a slot through page.goto and
wait_for_selector; closing holding a slot through content capture and the
finally page.close; finished after the slot is released. -/
inductive FetchPhase where
  | idle : FetchPhase
  | waiting : FetchPhase
  | preNav : FetchPhase
  | navWait : FetchPhase
  | closing : FetchPhase
  | finished : FetchPhase
deriving DecidableEq

/-- Whether a phase holds a slot of self.semaphore. -/
def holdsSlot : FetchPhase → Bool
  | .preNav => true
  | .navWait => true
  | .closing => true
  | _ => false

/-- Whether a phase is the navigation and readiness-wait section. -/
def inNavWait : FetchPhase → Bool
  | .navWait => true
  | _ => false

/-- Global state of one orchestrator run: remaining permits of
self.semaphore and the phase of each spawned task. -/
structure FetchSys where
  avail : Nat
  tasks : List FetchPhase

/-- Start state: the semaphore holds its full capacity c and all n tasks
are idle. -/
def initSys (c n : Nat) : FetchSys :=
  ⟨c, List.replicate n .idle⟩

/-- Interleaving steps of the cooperative scheduler over
_fetch_page_content.  A task acquires a permit strictly before any network
work and releases it only after the finally block, so the whole
navigate-and-wait section runs while holding the permit. -/
inductive FetchStep : FetchSys → FetchSys → Prop
  | enter (s : FetchSys) (i : Nat) (h : s.tasks.get? i = some .idle) :
      FetchStep s ⟨s.avail, s.tasks.set i .waiting⟩
  | acquire (s : FetchSys) (i : Nat) (h : s.tasks.get? i = some .waiting)
      (hp : 0 < s.avail) :
      FetchStep s ⟨s.avail - 1, s.tasks.set i .preNav⟩
  | beginNav (s : FetchSys) (i : Nat) (h : s.tasks.get? i = some .preNav) :
      FetchStep s ⟨s.avail, s.tasks.set i .navWait⟩
  | endNav (s : FetchSys) (i : Nat) (h : s.tasks.get? i = some .navWait) :
      FetchStep s ⟨s.avail, s.tasks.set i .closing⟩
  | release (s : FetchSys) (i : Nat) (h : s.tasks.get? i = some .closing) :
      FetchStep s ⟨s.avail + 1, s.tasks.set i .finished⟩

/-- States reachable from the start state of a run with concurrency c and
n tasks. -/
inductive Reach (c n : Nat) : FetchSys → Prop
  | init : Reach c n (initSys c n)
  | step {s s2 : FetchSys} : Reach c n s → FetchStep s s2 → Reach c n s2

/-! ## Helper lemmas -/

theorem eqStr_true_iff (v : JVal) (u : String) :
    v.eqStr u = true ↔ v = JVal.str u := by
  cases v <;> simp [JVal.eqStr]

theorem memStr_true_iff (vs : List JVal) (u : String) :
    memStr vs u = true ↔ JVal.str u ∈ vs := by
  simp only [memStr, List.any_eq_true, eqStr_true_iff]
  constructor
  · rintro ⟨v, hv, rfl⟩; exact hv
  · intro h; exact ⟨_, h, rfl⟩

theorem jlookup_head (k : String) (v : JVal) (rest : List (String × JVal)) :
    jlookup k ((k, v) :: rest) = some v := by
  simp [jlookup]

/-- A success of scrape_single_url records the input URL under
article_url. -/
theorem scrape_single_url_ok_shape (fetch : Nat → Option Doc) (u : String)
    (rec : List (String × JVal)) (h : scrape_single_url fetch u = .ok rec) :
    jlookup "article_url" rec = some (.str u) := by
  unfold scrape_single_url at h
  cases hf : fetchOutcome fetch st_max_retries with
  | none => rw [hf] at h; cases h
  | some d =>
    rw [hf] at h
    dsimp only at h
    by_cases ha : d.hasArticle
    · rw [if_pos ha] at h
      cases hfl : d.fields with
      | error e => rw [hfl] at h; cases h
      | ok flds =>
        rw [hfl] at h
        cases h
        exact jlookup_head _ _ _
    · rw [if_neg ha] at h
      cases h

/-- A failure of scrape_single_url carries the input URL in its second
position. -/
theorem scrape_single_url_err_shape (fetch : Nat → Option Doc) (u : String)
    (u2 m t : String) (h : scrape_single_url fetch u = .err u2 m t) :
    u2 = u := by
  unfold scrape_single_url at h
  cases hf : fetchOutcome fetch st_max_retries with
  | none => rw [hf] at h; cases h; rfl
  | some d =>
    rw [hf] at h
    dsimp only at h
    by_cases ha : d.hasArticle
    · rw [if_pos ha] at h
      cases hfl : d.fields with
      | error e => rw [hfl] at h; cases h; rfl
      | ok flds => rw [hfl] at h; cases h
    · rw [if_neg ha] at h
      cases h; rfl

/-- Shape of scrape_single_url: the success dict records the input URL
under article_url, and the failure tuple carries the input URL in its
second position. -/
theorem scrape_single_url_shape (F : String → Nat → Option Doc) :
    scrapeShape (fun u => scrape_single_url (F u) u) :=
  fun u =>
    ⟨fun rec h => scrape_single_url_ok_shape (F u) u rec h,
     fun u2 m t h => scrape_single_url_err_shape (F u) u u2 m t h⟩

theorem runRetryLoop_calls_le (fetch : Nat → Option Doc) :
    ∀ rem calls soup, (runRetryLoop fetch rem calls soup).1 ≤ calls + rem := by
  intro rem
  induction rem with
  | zero => intro calls soup; simp [runRetryLoop]
  | succ r ih =>
    intro calls soup
    simp only [runRetryLoop]
    by_cases h : soupOk (fetch calls) = true
    · rw [if_pos h]; omega
    · rw [if_neg h]
      have := ih (calls + 1) (fetch calls)
      omega

theorem runRetryLoop_early_stop (fetch : Nat → Option Doc) :
    ∀ i rem calls soup, i < rem → soupOk (fetch (calls + i)) = true →
      (∀ j, j < i → soupOk (fetch (calls + j)) = false) →
      runRetryLoop fetch rem calls soup = (calls + i + 1, fetch (calls + i)) := by
  intro i
  induction i with
  | zero =>
    intro rem calls soup hlt hok _
    cases rem with
    | zero => omega
    | succ r =>
      simp only [Nat.add_zero] at hok
      simp only [runRetryLoop]
      rw [if_pos hok]
      simp only [Nat.add_zero]
  | succ i ih =>
    intro rem calls soup hlt hok hfail
    cases rem with
    | zero => omega
    | succ r =>
      have h0 : soupOk (fetch calls) = false := by
        have := hfail 0 (Nat.succ_pos i)
        simpa using this
      have h0n : ¬ (soupOk (fetch calls) = true) := by simp [h0]
      simp only [runRetryLoop]
      rw [if_neg h0n]
      have hshift : calls + (i + 1) = (calls + 1) + i := by omega
      have hok2 : soupOk (fetch ((calls + 1) + i)) = true := by
        rw [← hshift]; exact hok
      have hfail2 : ∀ j, j < i → soupOk (fetch ((calls + 1) + j)) = false := by
        intro j hj
        have := hfail (j + 1) (by omega)
        have he : calls + (j + 1) = (calls + 1) + j := by omega
        rw [he] at this
        exact this
      rw [ih r (calls + 1) (fetch calls) (by omega) hok2 hfail2, hshift]

/-! ## Claim theorems -/

/-- Claim C6: for every input URL, scrape_single_url never propagates an
exception — every raise inside the try body is caught — and it returns
either a success dict containing the input url under article_url, or a
failure record serialized as exactly the 4-element array
ERROR, url, errorMessage, stackTrace with the original input url in
position 1. -/
theorem C6_failure_record_shape (fetch : Nat → Option Doc) (url : String) :
    (∃ rec, scrape_single_url fetch url = .ok rec ∧ ("article_url", JVal.str url) ∈ rec)
    ∨ (∃ m t, scrape_single_url fetch url = .err url m t ∧
        errTuple (scrape_single_url fetch url)
          = some (.arr [.str "ERROR", .str url, .str m, .str t])) := by
  unfold scrape_single_url
  cases fetchOutcome fetch st_max_retries with
  | none => exact Or.inr ⟨_, _, rfl, rfl⟩
  | some d =>
    by_cases ha : d.hasArticle
    · simp only [ha, if_true]
      cases d.fields with
      | error e => exact Or.inr ⟨_, _, rfl, rfl⟩
      | ok flds => exact Or.inl ⟨_, rfl, List.mem_cons_self _ _⟩
    · simp only [ha, if_false, Bool.false_eq_true]
      exact Or.inr ⟨_, _, rfl, rfl⟩

/-- Claim C8: the retry loop of the fetch-and-extract wrapper calls
_fetch_page_content at most 3 times (ST_Scraper) respectively 2 times
(AsyncScraper), and stops on the first attempt whose document contains the
article readiness marker: if attempt i is the first successful one, exactly
i + 1 fetches happen and the loop keeps that document. -/
theorem C8_bounded_retry (fetch : Nat → Option Doc) (i : Nat) :
    fetchAttempts fetch st_max_retries ≤ 3
    ∧ fetchAttempts fetch async_max_retries ≤ 2
    ∧ (i < st_max_retries → soupOk (fetch i) = true →
        (∀ j, j < i → soupOk (fetch j) = false) →
        fetchAttempts fetch st_max_retries = i + 1
          ∧ fetchOutcome fetch st_max_retries = fetch i)
    ∧ (i < async_max_retries → soupOk (fetch i) = true →
        (∀ j, j < i → soupOk (fetch j) = false) →
        fetchAttempts fetch async_max_retries = i + 1
          ∧ fetchOutcome fetch async_max_retries = fetch i) := by
  refine ⟨?_, ?_, ?_, ?_⟩
  · have := runRetryLoop_calls_le fetch st_max_retries 0 none
    simpa [fetchAttempts, st_max_retries] using this
  · have := runRetryLoop_calls_le fetch async_max_retries 0 none
    simpa [fetchAttempts, async_max_retries] using this
  · intro hlt hok hfail
    have h := runRetryLoop_early_stop fetch i st_max_retries 0 none hlt
      (by simpa using hok) (by intro j hj; simpa using hfail j hj)
    constructor
    · simp only [fetchAttempts, h, Nat.zero_add]
    · simp only [fetchOutcome, h, Nat.zero_add]
  · intro hlt hok hfail
    have h := runRetryLoop_early_stop fetch i async_max_retries 0 none hlt
      (by simpa using hok) (by intro j hj; simpa using hfail j hj)
    constructor
    · simp only [fetchAttempts, h, Nat.zero_add]
    · simp only [fetchOutcome, h, Nat.zero_add]

/-- A document whose article tag is present and whose extraction succeeds
with no extra fields. -/
def cDoc : Doc := ⟨true, .ok []⟩

/-- A fetch oracle that fails on attempt 0 and succeeds on attempt 1. -/
def cFetch : Nat → Option Doc := fun n => if n = 1 then some cDoc else none

theorem C8_bounded_retry_witness :
    fetchAttempts cFetch st_max_retries ≤ 3
    ∧ fetchAttempts cFetch st_max_retries = 2
    ∧ fetchOutcome cFetch st_max_retries = cFetch 1 := by
  have h := C8_bounded_retry cFetch 1
  have hfail : ∀ j, j < 1 → soupOk (cFetch j) = false := by
    intro j hj
    match j, hj with
    | 0, _ => rfl
  have he := h.2.2.1 (by decide) (by rfl) hfail
  exact ⟨h.1, he.1, he.2⟩

theorem runFetches_launches (n : Nat) :
    ∀ s : ScraperSession, (runFetches n s).launches = s.launches := by
  induction n with
  | zero => intro s; rfl
  | succ m ih => intro s; exact ih (fetch_page_step s)

theorem runFetches_pages (n : Nat) :
    ∀ s : ScraperSession,
      (runFetches n s).pagesOpened = s.pagesOpened + n
      ∧ (runFetches n s).pagesClosed = s.pagesClosed + n := by
  induction n with
  | zero => intro s; exact ⟨rfl, rfl⟩
  | succ m ih =>
    intro s
    have h := ih (fetch_page_step s)
    have hxo : (fetch_page_step s).pagesOpened = s.pagesOpened + 1 := rfl
    have hxc : (fetch_page_step s).pagesClosed = s.pagesClosed + 1 := rfl
    refine ⟨?_, ?_⟩
    · show (runFetches m (fetch_page_step s)).pagesOpened = s.pagesOpened + (m + 1)
      rw [h.1, hxo]
      omega
    · show (runFetches m (fetch_page_step s)).pagesClosed = s.pagesClosed + (m + 1)
      rw [h.2, hxc]
      omega

/-- Claim C2, counterexample: with a page budget of N = 5, after 6 fetches
within one run the number of recycle operations is 0, not 1 — nothing in
_fetch_page_content counts pages or tears the browser down. -/
theorem C2_counterexample :
    ¬ (recycleOps (runFetches 6 (aenter 5 freshScraper)) = 1) := by
  have h := runFetches_launches 6 (aenter 5 freshScraper)
  intro hc
  rw [recycleOps, h] at hc
  simp [aenter, freshScraper] at hc

/-- Claim C2, amended: ST_Scraper keeps no fetched-page counter and never
recycles mid-run: for every number of fetches n in one run, zero recycle
operations have occurred, the browser engine has been launched exactly once
(on entering the run), and every fetch closes the page it opened. -/
theorem C2_amended (n c : Nat) :
    recycleOps (runFetches n (aenter c freshScraper)) = 0
    ∧ (runFetches n (aenter c freshScraper)).launches = 1
    ∧ (runFetches n (aenter c freshScraper)).pagesClosed
        = (runFetches n (aenter c freshScraper)).pagesOpened := by
  have hl := runFetches_launches n (aenter c freshScraper)
  have hp := runFetches_pages n (aenter c freshScraper)
  have hl1 : (aenter c freshScraper).launches = 1 := rfl
  refine ⟨?_, ?_, ?_⟩
  · rw [recycleOps, hl, hl1]
  · rw [hl, hl1]
  · rw [hp.1, hp.2]
    rfl

theorem stripUrls_blank (l1 l2 : List String) (b : String) (hb : pyStrip b = "") :
    stripUrls (l1 ++ b :: l2) = stripUrls (l1 ++ l2) := by
  simp [stripUrls, List.filterMap_append, List.filterMap_cons, hb]

/-- Claim C7: process_txt_async returns the batch identifier (the input
file stem) whenever the input was readable — including an empty input and
an input whose URLs are all already processed — returns none exactly when
reading the input raised, and ignores blank lines. -/
theorem C7_return_contract (stem : String) (outLog : Option (List (Option JVal)))
    (f : String → ScrapeResult) :
    (process_txt_async stem none outLog f).ret = none
    ∧ (∀ raw, (process_txt_async stem (some raw) outLog f).ret = some stem)
    ∧ (∀ l1 l2 b, pyStrip b = "" →
        process_txt_async stem (some (l1 ++ b :: l2)) outLog f
          = process_txt_async stem (some (l1 ++ l2)) outLog f) := by
  refine ⟨rfl, ?_, ?_⟩
  · intro raw
    unfold process_txt_async
    dsimp only
    by_cases h1 : (stripUrls raw).isEmpty
    · rw [if_pos h1]
    · rw [if_neg h1]
      by_cases h2 : (scheduledUrls raw outLog).isEmpty
      · simp only [h2, if_true]
      · simp only [h2, if_false, Bool.false_eq_true]
  · intro l1 l2 b hb
    unfold process_txt_async scheduledUrls
    dsimp only
    rw [stripUrls_blank l1 l2 b hb]

/-- A scrape oracle that fails on every URL. -/
def constErrScrape : String → ScrapeResult := fun u => .err u "boom" "tb"

theorem C7_return_contract_witness :
    (process_txt_async "2024_01" none none constErrScrape).ret = none
    ∧ (process_txt_async "2024_01" (some ["u1"]) none constErrScrape).ret
        = some "2024_01"
    ∧ process_txt_async "2024_01" (some (["u1"] ++ " " :: ["u2"])) none constErrScrape
        = process_txt_async "2024_01" (some (["u1"] ++ ["u2"])) none constErrScrape := by
  have h := C7_return_contract "2024_01" none constErrScrape
  exact ⟨h.1, h.2.1 ["u1"], h.2.2 ["u1"] ["u2"] " " (by decide)⟩

/-- Claim C1: a rerun of process_txt_async never schedules a URL whose
article_url is already recorded in the success log, and none of the success
records it appends carries such a URL — so no recorded URL is re-fetched
and no duplicate success entry is appended. -/
theorem C1_idempotent_resume (stem : String) (raw : List String)
    (outLines : List (Option JVal)) (f : String → ScrapeResult)
    (hf : scrapeShape f) (u : String)
    (hmem : JVal.str u ∈ processedUrls outLines) :
    u ∉ scheduledUrls raw (some outLines)
    ∧ ∀ rec, JVal.obj rec ∈ (process_txt_async stem (some raw) (some outLines) f).okAppend →
        jlookup "article_url" rec ≠ some (JVal.str u) := by
  have hmemb : memStr (processedUrls outLines) u = true :=
    (memStr_true_iff _ _).mpr hmem
  have hsched : u ∉ scheduledUrls raw (some outLines) := by
    intro hu
    unfold scheduledUrls at hu
    have := (List.mem_filter.mp hu).2
    rw [hmemb] at this
    cases this
  refine ⟨hsched, ?_⟩
  intro rec hrec hlook
  unfold process_txt_async at hrec
  dsimp only at hrec
  by_cases h1 : (stripUrls raw).isEmpty
  · rw [if_pos h1] at hrec; cases hrec
  · rw [if_neg h1] at hrec
    by_cases h2 : (scheduledUrls raw (some outLines)).isEmpty
    · simp only [h2, if_true] at hrec; cases hrec
    · simp only [h2, if_false, Bool.false_eq_true] at hrec
      obtain ⟨r, hr, hok⟩ := List.mem_filterMap.mp hrec
      obtain ⟨u2, hu2, hfu2⟩ := List.mem_map.mp hr
      have hrok : f u2 = .ok rec := by
        rw [hfu2]
        cases r with
        | ok rec2 =>
          simp only [okRec] at hok
          injection hok with h3
          injection h3 with h4
          rw [h4]
        | err a b c =>
          simp only [okRec] at hok
          exact Option.noConfusion hok
      have hshape := (hf u2).1 rec hrok
      rw [hshape] at hlook
      have : u2 = u := by
        injection hlook with h3
        injection h3
      subst this
      exact hsched hu2

/-- A fetch oracle giving no document, for witnessing. -/
def cNoFetch : String → Nat → Option Doc := fun _ _ => none

/-- The modelled scraper used as the scrape oracle of a run. -/
def cScrape : String → ScrapeResult := fun u => scrape_single_url (cNoFetch u) u

/-- A pre-existing success log holding one record for u1. -/
def cOutLines : List (Option JVal) :=
  [some (.obj [("article_url", .str "u1"), ("site_title", .str "t")])]

theorem C1_idempotent_resume_witness :
    JVal.str "u1" ∈ processedUrls cOutLines
    ∧ "u1" ∉ scheduledUrls ["u1", "u2"] (some cOutLines) := by
  have hmem : JVal.str "u1" ∈ processedUrls cOutLines := by
    simp [cOutLines, processedUrls, jlookup]
  exact ⟨hmem,
    (C1_idempotent_resume "m" ["u1", "u2"] cOutLines cScrape
      (scrape_single_url_shape cNoFetch) "u1" hmem).1⟩

/-- Claim C4, counterexample: an input file that cannot be read leaves the
batch incomplete (process_txt_async returns None), yet the worker still
moves the file into the done directory, because _run_one_file ignores that
return value and the swallowed read error raises no exception. -/
theorem C4_counterexample :
    (run_one_file "2024_01" none none constErrScrape false).orch = none
    ∧ (run_one_file "2024_01" none none constErrScrape false).loc = FileLoc.seen
    ∧ (run_one_file "2024_01" none none constErrScrape false).statusOk = true := by
  exact ⟨rfl, rfl, rfl⟩

/-- Claim C4, amended: the input file ends in the done directory exactly
when no exception escapes the worker body, and remains pending exactly when
one does — readability of the input plays no role, since a read failure is
caught inside process_txt_async (which then returns None, a value the
worker discards) and therefore still counts as completion. -/
theorem C4_amended (stem : String) (readResult : Option (List String))
    (outLog : Option (List (Option JVal))) (scrape : String → ScrapeResult)
    (machineryRaises : Bool) :
    (machineryRaises = true →
      (run_one_file stem readResult outLog scrape machineryRaises).loc = FileLoc.pending
      ∧ (run_one_file stem readResult outLog scrape machineryRaises).statusOk = false)
    ∧ (machineryRaises = false →
      (run_one_file stem readResult outLog scrape machineryRaises).loc = FileLoc.seen
      ∧ (run_one_file stem readResult outLog scrape machineryRaises).statusOk = true) := by
  constructor
  · intro h
    subst h
    exact ⟨rfl, rfl⟩
  · intro h
    subst h
    exact ⟨rfl, rfl⟩

theorem C4_amended_witness :
    (run_one_file "2024_01" (some ["u1"]) none constErrScrape true).loc = FileLoc.pending
    ∧ (run_one_file "2024_01" (some ["u1"]) none constErrScrape false).loc = FileLoc.seen := by
  exact ⟨((C4_amended "2024_01" (some ["u1"]) none constErrScrape true).1 rfl).1,
         ((C4_amended "2024_01" (some ["u1"]) none constErrScrape false).2 rfl).1⟩

/-- A sweeper-side scrape oracle that fails on every entry. -/
def constErrScrapeJ : JVal → ScrapeResult := fun _ => .err "u" "boom" "tb"

/-- Claim C5, counterexample: a failure log whose single line parses to a
JSON object loads zero valid entries, so retry_file returns early and the
log keeps its line instead of being rewritten to the empty set of
still-failing loaded entries. -/
theorem C5_counterexample :
    load_error_file [some (JVal.obj [])] = []
    ∧ (load_error_file [some (JVal.obj [])]).filter
        (fun e => !(isRetrySuccess (constErrScrapeJ (entryUrl e)))) = []
    ∧ errFileAfterRetry constErrScrapeJ [some (JVal.obj [])] = [some (JVal.obj [])] := by
  exact ⟨rfl, rfl, rfl⟩

/-- Claim C5, amended: whenever at least one valid entry loads, retry_file
overwrites the failure log with exactly the loaded entries whose re-attempt
still failed — nothing else survives the rewrite — and appends one success
record per loaded entry whose re-attempt succeeded; when no valid entry
loads, retry_file returns early and leaves the log untouched. -/
theorem C5_retry_sweep_rewrite (scrape : JVal → ScrapeResult)
    (errLines : List (Option JVal))
    (h : (load_error_file errLines).isEmpty = false) :
    errFileAfterRetry scrape errLines
      = ((load_error_file errLines).filter
          (fun e => !(isRetrySuccess (scrape (entryUrl e))))).map
            (fun e => some (JVal.arr e))
    ∧ (retry_file scrape errLines).1
      = (load_error_file errLines).filterMap (retrySuccRec scrape) := by
  have hni : ¬ ((load_error_file errLines).isEmpty = true) := by
    rw [h]
    exact Bool.false_ne_true
  constructor
  · simp only [errFileAfterRetry, retry_file]
    rw [if_neg hni]
  · simp only [retry_file]
    rw [if_neg hni]

/-- One loadable failure entry for u1. -/
def cErrEntry : List JVal := [.str "ERROR", .str "u1", .str "boom", .str "tb"]

theorem C5_retry_sweep_rewrite_witness :
    (load_error_file [some (JVal.arr cErrEntry)]).isEmpty = false
    ∧ errFileAfterRetry constErrScrapeJ [some (JVal.arr cErrEntry)]
        = [some (JVal.arr cErrEntry)]
    ∧ (retry_file constErrScrapeJ [some (JVal.arr cErrEntry)]).1 = [] := by
  have h := C5_retry_sweep_rewrite constErrScrapeJ [some (JVal.arr cErrEntry)] rfl
  exact ⟨rfl, by rw [h.1]; rfl, by rw [h.2]; rfl⟩

/-- Claim C10, counterexample: a failure log holding exactly one line that
parses to a JSON object is not rewritten at all (no valid entry loads, so
retry_file returns early), and the object line is preserved, not dropped. -/
theorem C10_counterexample :
    some (JVal.obj [("x", JVal.num 1)])
      ∈ errFileAfterRetry constErrScrapeJ [some (JVal.obj [("x", JVal.num 1)])] := by
  have h : errFileAfterRetry constErrScrapeJ [some (JVal.obj [("x", JVal.num 1)])]
      = [some (JVal.obj [("x", JVal.num 1)])] := rfl
  rw [h]
  exact List.mem_singleton.mpr rfl

/-- Claim C10, amended: provided at least one valid entry loads (so the
rewrite actually happens), every line that parses to JSON but is not an
array of length at least 2 is neither retried (it is never loaded as an
entry) nor preserved (the rewritten log holds only still-failing loaded
entries, all of which are such arrays); and warnings are emitted only for
lines that fail to parse at all — a parseable line adds no warning. -/
theorem C10_silent_sweep_loss (scrape : JVal → ScrapeResult)
    (l1 l2 : List (Option JVal)) (v : JVal)
    (hv : ∀ e, v = JVal.arr e →¬ 1 < e.length)
    (hne : (load_error_file (l1 ++ some v :: l2)).isEmpty = false) :
    some v ∉ errFileAfterRetry scrape (l1 ++ some v :: l2)
    ∧ (∀ e, e ∈ load_error_file (l1 ++ some v :: l2) → JVal.arr e ≠ v)
    ∧ numWarnings (l1 ++ some v :: l2) = numWarnings (l1 ++ l2) := by
  have hload : ∀ e, e ∈ load_error_file (l1 ++ some v :: l2) → JVal.arr e ≠ v := by
    intro e he hev
    obtain ⟨l, hl, hfe⟩ := List.mem_filterMap.mp he
    cases l with
    | none => cases hfe
    | some w =>
      cases w with
      | arr es =>
        dsimp only at hfe
        by_cases hlen2 : 1 < es.length
        · rw [if_pos hlen2] at hfe
          injection hfe with h2
          subst h2
          exact hv es hev.symm hlen2
        · rw [if_neg hlen2] at hfe
          cases hfe
      | null => cases hfe
      | bool b => cases hfe
      | num n => cases hfe
      | str s => cases hfe
      | obj fs => cases hfe
  refine ⟨?_, hload, ?_⟩
  · intro hm
    have hni : ¬ ((load_error_file (l1 ++ some v :: l2)).isEmpty = true) := by
      rw [hne]
      exact Bool.false_ne_true
    simp only [errFileAfterRetry, retry_file] at hm
    rw [if_neg hni] at hm
    dsimp only at hm
    obtain ⟨e, he, hse⟩ := List.mem_map.mp hm
    have he2 := List.mem_filter.mp he
    injection hse with h3
    exact hload e he2.1 h3
  · unfold numWarnings
    simp [List.countP_append]

/-- A failure log with one valid entry followed by an object line. -/
def cMixedErrLines : List (Option JVal) :=
  [some (.arr cErrEntry), some (.obj [("x", .num 1)])]

theorem C10_silent_sweep_loss_witness :
    some (JVal.obj [("x", JVal.num 1)])
      ∉ errFileAfterRetry constErrScrapeJ cMixedErrLines
    ∧ numWarnings cMixedErrLines = numWarnings [some (JVal.arr cErrEntry)] := by
  have h := C10_silent_sweep_loss constErrScrapeJ [some (.arr cErrEntry)] []
    (JVal.obj [("x", JVal.num 1)])
    (by intro e he; cases he)
    rfl
  exact ⟨h.1, h.2.2⟩

/-- Number of tasks currently holding a permit of self.semaphore. -/
def slotHolders (s : FetchSys) : Nat := s.tasks.countP holdsSlot

/-- The semaphore invariant: permits held plus permits available equal the
configured concurrency. -/
def sysInv (c : Nat) (s : FetchSys) : Prop := slotHolders s + s.avail = c

theorem countP_set_get (p : FetchPhase → Bool) :
    ∀ (l : List FetchPhase) (i : Nat) (x a : FetchPhase), l.get? i = some x →
      (l.set i a).countP p + (if p x then 1 else 0)
        = l.countP p + (if p a then 1 else 0) := by
  intro l
  induction l with
  | nil => intro i x a h; cases h
  | cons y ys ih =>
    intro i x a h
    cases i with
    | zero =>
      injection h with h2
      subst h2
      simp only [List.set, List.countP_cons]
      omega
    | succ j =>
      have h2 : ys.get? j = some x := h
      simp only [List.set, List.countP_cons]
      have := ih j x a h2
      omega

theorem countP_replicate_idle (n : Nat) (p : FetchPhase → Bool)
    (hp : p FetchPhase.idle = false) :
    (List.replicate n FetchPhase.idle).countP p = 0 := by
  induction n with
  | zero => rfl
  | succ m ih => simp [List.replicate, List.countP_cons, ih, hp]

theorem reach_inv {c n : Nat} {s : FetchSys} (h : Reach c n s) : sysInv c s := by
  induction h with
  | init =>
    have h1 : slotHolders (initSys c n) = 0 :=
      countP_replicate_idle n holdsSlot rfl
    have h2 : (initSys c n).avail = c := rfl
    unfold sysInv
    omega
  | @step s1 s2 hr hs ih =>
    cases hs with
    | enter i hget =>
      have hc := countP_set_get holdsSlot s1.tasks i .idle .waiting hget
      unfold sysInv slotHolders at ih ⊢
      simp [holdsSlot] at hc
      simp only
      omega
    | acquire i hget hp =>
      have hc := countP_set_get holdsSlot s1.tasks i .waiting .preNav hget
      unfold sysInv slotHolders at ih ⊢
      simp [holdsSlot] at hc
      simp only
      omega
    | beginNav i hget =>
      have hc := countP_set_get holdsSlot s1.tasks i .preNav .navWait hget
      unfold sysInv slotHolders at ih ⊢
      simp [holdsSlot] at hc
      simp only
      omega
    | endNav i hget =>
      have hc := countP_set_get holdsSlot s1.tasks i .navWait .closing hget
      unfold sysInv slotHolders at ih ⊢
      simp [holdsSlot] at hc
      simp only
      omega
    | release i hget =>
      have hc := countP_set_get holdsSlot s1.tasks i .closing .finished hget
      unfold sysInv slotHolders at ih ⊢
      simp [holdsSlot] at hc
      simp only
      omega

theorem countP_navWait_le_holds (l : List FetchPhase) :
    l.countP inNavWait ≤ l.countP holdsSlot := by
  induction l with
  | nil => exact Nat.le_refl 0
  | cons x xs ih =>
    simp only [List.countP_cons]
    have hx : (if inNavWait x then 1 else 0) ≤ (if holdsSlot x then 1 else 0) := by
      cases x <;> simp [inNavWait, holdsSlot]
    omega

/-- Claim C9: in every state reachable within one run configured with
concurrency c, at most c tasks are in the navigation and readiness-wait
section of _fetch_page_content — the bounded semaphore is acquired before
any network work and held throughout that section. -/
theorem C9_bounded_concurrency (c n : Nat) (s : FetchSys) (h : Reach c n s) :
    s.tasks.countP inNavWait ≤ c := by
  have hinv := reach_inv h
  have hle := countP_navWait_le_holds s.tasks
  unfold sysInv slotHolders at hinv
  omega

theorem C9_bounded_concurrency_witness :
    (FetchSys.mk 1 [FetchPhase.navWait]).tasks.countP inNavWait ≤ 2 := by
  have h0 : Reach 2 1 (initSys 2 1) := Reach.init
  have h1 : Reach 2 1 ⟨2, [FetchPhase.waiting]⟩ :=
    Reach.step h0 (FetchStep.enter (initSys 2 1) 0 rfl)
  have h2 : Reach 2 1 ⟨1, [FetchPhase.preNav]⟩ :=
    Reach.step h1 (FetchStep.acquire ⟨2, [FetchPhase.waiting]⟩ 0 rfl (by decide))
  have h3 : Reach 2 1 ⟨1, [FetchPhase.navWait]⟩ :=
    Reach.step h2 (FetchStep.beginNav ⟨1, [FetchPhase.preNav]⟩ 0 rfl)
  exact C9_bounded_concurrency 2 1 ⟨1, [FetchPhase.navWait]⟩ h3

/-! ## Lemmas for the orchestrator plus retry-sweeper pipeline -/

theorem mem_load_error_file {lines : List (Option JVal)} {e : List JVal} :
    e ∈ load_error_file lines ↔ some (JVal.arr e) ∈ lines ∧ 1 < e.length := by
  constructor
  · intro h
    obtain ⟨l, hl, hfe⟩ := List.mem_filterMap.mp h
    cases l with
    | none => cases hfe
    | some w =>
      cases w with
      | arr es =>
        dsimp only at hfe
        by_cases hlen : 1 < es.length
        · rw [if_pos hlen] at hfe
          injection hfe with h2
          subst h2
          exact ⟨hl, hlen⟩
        · rw [if_neg hlen] at hfe
          cases hfe
      | null => cases hfe
      | bool b => cases hfe
      | num n => cases hfe
      | str s2 => cases hfe
      | obj fs => cases hfe
  · intro hpair
    refine List.mem_filterMap.mpr ⟨some (JVal.arr e), hpair.1, ?_⟩
    dsimp only
    rw [if_pos hpair.2]

theorem entryUrl_get : ∀ (e : List JVal), 1 < e.length → e.get? 1 = some (entryUrl e)
  | _ :: _ :: _, _ => rfl
  | [], h => by simp at h
  | [_], h => by simp at h

theorem get_one_lt_length {e : List JVal} {x : JVal} (h : e.get? 1 = some x) :
    1 < e.length := by
  obtain ⟨hlt, _⟩ := List.get?_eq_some.mp h
  exact hlt

theorem entryUrl_eq_of_get {e : List JVal} {x : JVal} (h : e.get? 1 = some x) :
    entryUrl e = x := by
  have hlt := get_one_lt_length h
  have h2 := entryUrl_get e hlt
  rw [h] at h2
  injection h2 with h3
  exact h3.symm

theorem okHas_append (a b : List JVal) (u : String) :
    okHas (a ++ b) u ↔ okHas a u ∨ okHas b u := by
  unfold okHas
  constructor
  · rintro ⟨rec, hm, hl⟩
    rcases List.mem_append.mp hm with h | h
    · exact Or.inl ⟨rec, h, hl⟩
    · exact Or.inr ⟨rec, h, hl⟩
  · rintro (⟨rec, hm, hl⟩ | ⟨rec, hm, hl⟩)
    · exact ⟨rec, List.mem_append.mpr (Or.inl hm), hl⟩
    · exact ⟨rec, List.mem_append.mpr (Or.inr hm), hl⟩

theorem errHas_map_arr (rem : List (List JVal)) (u : String) :
    errHas (rem.map (fun e => some (JVal.arr e))) u
      ↔ ∃ e, e ∈ rem ∧ e.get? 1 = some (.str u) := by
  unfold errHas
  constructor
  · rintro ⟨e2, hm, hg⟩
    obtain ⟨e, he, heq⟩ := List.mem_map.mp hm
    injection heq with h2
    injection h2 with h3
    subst h3
    exact ⟨e, he, hg⟩
  · rintro ⟨e, he, hg⟩
    exact ⟨e, List.mem_map.mpr ⟨e, he, rfl⟩, hg⟩

theorem okHas_filterMap_succ (g : JVal → ScrapeResult) (hg : scrapeShapeJ g)
    (entries : List (List JVal)) (u : String) :
    okHas (entries.filterMap (retrySuccRec g)) u
      ↔ ∃ e, e ∈ entries ∧ entryUrl e = .str u
            ∧ isRetrySuccess (g (entryUrl e)) = true := by
  unfold okHas
  constructor
  · rintro ⟨rec, hm, hl⟩
    obtain ⟨e, he, hfe⟩ := List.mem_filterMap.mp hm
    unfold retrySuccRec at hfe
    cases hge : g (entryUrl e) with
    | ok rec2 =>
      rw [hge] at hfe
      dsimp only at hfe
      by_cases hs : (jlookup "article_url" rec2).isSome = true
      · rw [if_pos hs] at hfe
        injection hfe with h2
        injection h2 with h3
        subst h3
        have hlook := hg (entryUrl e) rec2 hge
        rw [hl] at hlook
        injection hlook with h4
        refine ⟨e, he, h4.symm, ?_⟩
        unfold isRetrySuccess
        rw [hge]
        exact hs
      · rw [if_neg hs] at hfe
        cases hfe
    | err a b c =>
      rw [hge] at hfe
      cases hfe
  · rintro ⟨e, he, heu, hsucc⟩
    cases hge : g (entryUrl e) with
    | err a b c =>
      unfold isRetrySuccess at hsucc
      rw [hge] at hsucc
      cases hsucc
    | ok rec =>
      have hlook := hg (entryUrl e) rec hge
      have hsome : (jlookup "article_url" rec).isSome = true := by
        rw [hlook]
        rfl
      refine ⟨rec, List.mem_filterMap.mpr ⟨e, he, ?_⟩, ?_⟩
      · unfold retrySuccRec
        rw [hge]
        dsimp only
        rw [if_pos hsome]
      · rw [hlook, heu]

theorem errHas_iff_entry (errLines : List (Option JVal)) (u : String) :
    errHas errLines u ↔ ∃ e, e ∈ load_error_file errLines ∧ entryUrl e = .str u := by
  unfold errHas
  constructor
  · rintro ⟨e, hm, hg⟩
    have hlt := get_one_lt_length hg
    exact ⟨e, mem_load_error_file.mpr ⟨hm, hlt⟩, entryUrl_eq_of_get hg⟩
  · rintro ⟨e, he, heu⟩
    obtain ⟨hm, hlt⟩ := mem_load_error_file.mp he
    refine ⟨e, hm, ?_⟩
    rw [entryUrl_get e hlt, heu]

/-- Exactly one of success log and failure log records u. -/
def xorState (s : SweepState) (u : String) : Prop :=
  (okHas s.ok u ∧ ¬ errHas s.err u) ∨ (¬ okHas s.ok u ∧ errHas s.err u)

theorem sweepStep_preserves (g : JVal → ScrapeResult) (hg : scrapeShapeJ g)
    (s : SweepState) (u : String) (h : xorState s u) :
    xorState (sweepStep g s) u := by
  by_cases hemp : (load_error_file s.err).isEmpty = true
  · have h1 : retry_file g s.err = ([], none) := by
      simp only [retry_file]
      rw [if_pos hemp]
    have hok : (sweepStep g s).ok = s.ok := by
      show s.ok ++ (retry_file g s.err).1 = s.ok
      rw [h1]
      exact List.append_nil s.ok
    have herr2 : (sweepStep g s).err = s.err := by
      show errFileAfterRetry g s.err = s.err
      unfold errFileAfterRetry
      rw [h1]
    unfold xorState at h ⊢
    rw [hok, herr2]
    exact h
  · have h1 : (retry_file g s.err).1
        = (load_error_file s.err).filterMap (retrySuccRec g) := by
      simp only [retry_file]
      rw [if_neg hemp]
    have h2 : (retry_file g s.err).2
        = some ((load_error_file s.err).filter
            (fun e => !(isRetrySuccess (g (entryUrl e))))) := by
      simp only [retry_file]
      rw [if_neg hemp]
    have hok : (sweepStep g s).ok
        = s.ok ++ (load_error_file s.err).filterMap (retrySuccRec g) := by
      show s.ok ++ (retry_file g s.err).1 = _
      rw [h1]
    have herr2 : (sweepStep g s).err
        = ((load_error_file s.err).filter
            (fun e => !(isRetrySuccess (g (entryUrl e))))).map
              (fun e => some (JVal.arr e)) := by
      show errFileAfterRetry g s.err = _
      unfold errFileAfterRetry
      rw [h2]
    unfold xorState at h ⊢
    rw [hok, herr2]
    rcases h with ⟨hokU, herrU⟩ | ⟨hokU, herrU⟩
    · have hnoentry : ¬ ∃ e, e ∈ load_error_file s.err ∧ entryUrl e = .str u := by
        intro hc
        exact herrU ((errHas_iff_entry s.err u).mpr hc)
      left
      constructor
      · exact (okHas_append s.ok _ u).mpr (Or.inl hokU)
      · intro hc
        obtain ⟨e, he, hg1⟩ := (errHas_map_arr _ u).mp hc
        have he2 := List.mem_filter.mp he
        exact hnoentry ⟨e, he2.1, entryUrl_eq_of_get hg1⟩
    · obtain ⟨e0, he0, he0u⟩ := (errHas_iff_entry s.err u).mp herrU
      by_cases hb : isRetrySuccess (g (JVal.str u)) = true
      · left
        constructor
        · refine (okHas_append s.ok _ u).mpr (Or.inr
            ((okHas_filterMap_succ g hg _ u).mpr ⟨e0, he0, he0u, ?_⟩))
          rw [he0u]
          exact hb
        · intro hc
          obtain ⟨e, he, hg1⟩ := (errHas_map_arr _ u).mp hc
          have he2 := List.mem_filter.mp he
          have heu := entryUrl_eq_of_get hg1
          have hp : (!(isRetrySuccess (g (entryUrl e)))) = true := he2.2
          rw [heu, hb] at hp
          cases hp
      · have hbf : isRetrySuccess (g (JVal.str u)) = false := by
          cases hx : isRetrySuccess (g (JVal.str u)) with
          | true => exact absurd hx hb
          | false => rfl
        right
        constructor
        · intro hc
          rcases (okHas_append s.ok _ u).mp hc with hcl | hcr
          · exact hokU hcl
          · obtain ⟨e, he, heu, hsucc⟩ := (okHas_filterMap_succ g hg _ u).mp hcr
            rw [heu, hbf] at hsucc
            cases hsucc
        · refine (errHas_map_arr _ u).mpr ⟨e0, ?_, ?_⟩
          · refine List.mem_filter.mpr ⟨he0, ?_⟩
            show (!(isRetrySuccess (g (entryUrl e0)))) = true
            rw [he0u, hbf]
            rfl
          · obtain ⟨_, hlt⟩ := mem_load_error_file.mp he0
            rw [entryUrl_get e0 hlt, he0u]

theorem scheduledUrls_none (raw : List String) :
    scheduledUrls raw none = stripUrls raw := by
  unfold scheduledUrls
  simp [memStr]

theorem process_appends (stem : String) (raw : List String)
    (outLog : Option (List (Option JVal))) (f : String → ScrapeResult)
    (h1 : (stripUrls raw).isEmpty = false)
    (h2 : (scheduledUrls raw outLog).isEmpty = false) :
    process_txt_async stem (some raw) outLog f
      = ⟨some stem, ((scheduledUrls raw outLog).map f).filterMap okRec,
          ((scheduledUrls raw outLog).map f).filterMap errTuple⟩ := by
  unfold process_txt_async
  dsimp only
  rw [if_neg (by rw [h1]; exact Bool.false_ne_true),
      if_neg (by rw [h2]; exact Bool.false_ne_true)]

theorem okHas_orch (f : String → ScrapeResult) (hf : scrapeShape f)
    (urls : List String) (u : String) :
    okHas ((urls.map f).filterMap okRec) u
      ↔ u ∈ urls ∧ ∃ rec, f u = .ok rec := by
  unfold okHas
  constructor
  · rintro ⟨rec, hm, hl⟩
    obtain ⟨r, hr, hok⟩ := List.mem_filterMap.mp hm
    obtain ⟨u2, hu2, hfu2⟩ := List.mem_map.mp hr
    cases r with
    | err a b c => cases hok
    | ok rec2 =>
      simp only [okRec] at hok
      injection hok with h2
      injection h2 with h3
      subst h3
      have hlook := (hf u2).1 rec2 hfu2
      rw [hl] at hlook
      injection hlook with h4
      injection h4 with h5
      subst h5
      exact ⟨hu2, rec2, hfu2⟩
  · rintro ⟨hu, rec, hrec⟩
    exact ⟨rec,
      List.mem_filterMap.mpr ⟨.ok rec, List.mem_map.mpr ⟨u, hu, hrec⟩, rfl⟩,
      (hf u).1 rec hrec⟩

theorem errHas_orch (f : String → ScrapeResult) (hf : scrapeShape f)
    (urls : List String) (u : String) :
    errHas (((urls.map f).filterMap errTuple).map some) u
      ↔ u ∈ urls ∧ ∃ m t, f u = .err u m t := by
  unfold errHas
  constructor
  · rintro ⟨e, hm, hg⟩
    obtain ⟨w, hw, hweq⟩ := List.mem_map.mp hm
    injection hweq with h2
    subst h2
    obtain ⟨r, hr, hrt⟩ := List.mem_filterMap.mp hw
    obtain ⟨u2, hu2, hfu2⟩ := List.mem_map.mp hr
    cases r with
    | ok rec => cases hrt
    | err a b c =>
      simp only [errTuple] at hrt
      injection hrt with h3
      injection h3 with h4
      subst h4
      have ha := (hf u2).2 a b c hfu2
      subst ha
      have h5 : JVal.str a = JVal.str u := by
        injection hg with h6
      injection h5 with h6
      subst h6
      exact ⟨hu2, b, c, hfu2⟩
  · rintro ⟨hu, m, t, hrec⟩
    refine ⟨[.str "ERROR", .str u, .str m, .str t], ?_, rfl⟩
    refine List.mem_map.mpr ⟨.arr [.str "ERROR", .str u, .str m, .str t], ?_, rfl⟩
    exact List.mem_filterMap.mpr ⟨.err u m t, List.mem_map.mpr ⟨u, hu, hrec⟩, rfl⟩

theorem initial_xor (stem : String) (raw : List String) (f : String → ScrapeResult)
    (hf : scrapeShape f) (u : String) (hu : u ∈ stripUrls raw) :
    xorState (initialSweepState stem raw f) u := by
  have hne : (stripUrls raw).isEmpty = false := by
    cases hsu : stripUrls raw with
    | nil => rw [hsu] at hu; cases hu
    | cons a l => rfl
  have hsched : scheduledUrls raw none = stripUrls raw := scheduledUrls_none raw
  have h2 : (scheduledUrls raw none).isEmpty = false := by rw [hsched]; exact hne
  have husched : u ∈ scheduledUrls raw none := by rw [hsched]; exact hu
  have hp := process_appends stem raw none f hne h2
  have hokeq : (initialSweepState stem raw f).ok
      = ((scheduledUrls raw none).map f).filterMap okRec := by
    show (process_txt_async stem (some raw) none f).okAppend = _
    rw [hp]
  have herreq : (initialSweepState stem raw f).err
      = (((scheduledUrls raw none).map f).filterMap errTuple).map some := by
    show (process_txt_async stem (some raw) none f).errAppend.map some = _
    rw [hp]
  unfold xorState
  rw [hokeq, herreq]
  cases hfu : f u with
  | ok rec =>
    left
    constructor
    · exact (okHas_orch f hf (scheduledUrls raw none) u).mpr ⟨husched, rec, hfu⟩
    · intro hc
      obtain ⟨_, m, t, hft⟩ := (errHas_orch f hf (scheduledUrls raw none) u).mp hc
      rw [hfu] at hft
      cases hft
  | err a b c =>
    right
    constructor
    · intro hc
      obtain ⟨_, rec, hrec⟩ := (okHas_orch f hf (scheduledUrls raw none) u).mp hc
      rw [hfu] at hrec
      cases hrec
    · refine (errHas_orch f hf (scheduledUrls raw none) u).mpr ⟨husched, b, c, ?_⟩
      have ha := (hf u).2 a b c hfu
      rw [ha] at hfu
      exact hfu

/-- Claim C3: starting from fresh logs, for every URL in the input, after
one orchestrator run followed by any number of retry-sweeper passes —
in particular up to the pass at which the failure log stabilizes — the URL
is recorded in exactly one of the success log and the failure log, never in
neither.  f is the per-URL scrape outcome of the orchestrator run and g j
the per-entry outcome of sweeper pass j; both satisfy the record-shape
contract proved for the modelled scraper (scrape_single_url_shape). -/
theorem C3_at_least_once (stem : String) (raw : List String)
    (f : String → ScrapeResult) (g : Nat → JVal → ScrapeResult) (k : Nat)
    (hf : scrapeShape f) (hg : ∀ j, scrapeShapeJ (g j))
    (u : String) (hu : u ∈ stripUrls raw) :
    (okHas (sweepRounds g k (initialSweepState stem raw f)).ok u
      ∧ ¬ errHas (sweepRounds g k (initialSweepState stem raw f)).err u)
    ∨ (¬ okHas (sweepRounds g k (initialSweepState stem raw f)).ok u
      ∧ errHas (sweepRounds g k (initialSweepState stem raw f)).err u) := by
  have h : xorState (sweepRounds g k (initialSweepState stem raw f)) u := by
    induction k with
    | zero => exact initial_xor stem raw f hf u hu
    | succ m ih => exact sweepStep_preserves (g m) (hg m) _ u ih
  exact h

/-- A sweeper-pass oracle that succeeds on every entry, recording the
attempted value under article_url. -/
def cSweepScrape : JVal → ScrapeResult := fun v => .ok [("article_url", v)]

theorem cSweepScrape_shape : scrapeShapeJ cSweepScrape := by
  intro v rec h
  injection h with h2
  subst h2
  exact jlookup_head _ _ _

theorem C3_at_least_once_witness :
    "u1" ∈ stripUrls ["u1"]
    ∧ ((okHas (sweepRounds (fun _ => cSweepScrape) 1 (initialSweepState "m" ["u1"] cScrape)).ok "u1"
        ∧ ¬ errHas (sweepRounds (fun _ => cSweepScrape) 1 (initialSweepState "m" ["u1"] cScrape)).err "u1")
      ∨ (¬ okHas (sweepRounds (fun _ => cSweepScrape) 1 (initialSweepState "m" ["u1"] cScrape)).ok "u1"
        ∧ errHas (sweepRounds (fun _ => cSweepScrape) 1 (initialSweepState "m" ["u1"] cScrape)).err "u1")) := by
  have hu : "u1" ∈ stripUrls ["u1"] := by decide
  exact ⟨hu, C3_at_least_once "m" ["u1"] cScrape (fun _ => cSweepScrape) 1
    (scrape_single_url_shape cNoFetch) (fun _ => cSweepScrape_shape) "u1" hu⟩

end SitemapScrape
